import Mathlib

/-!
Verification of the wasp smart-contract execution core.

This file shallowly embeds, in Lean 4, the parts of the repository that the
verified statements are about:

* `packages/sctransaction/properties.go` — the transaction property analyzer
  (`calcProperties` and its stages `analyzeSender`, `countMintedTokens`,
  `analyzeStateBlock`, `analyzeRequestBlocks`, plus the accessors).
* the older `runvm` plugin (the unnamed source file, package `runvm`) —
  `runVM`, which processes a request batch with per-request token erasure.
* `plugins/runvm/plugin.go` — `RunComputationsAsync` and `runTask`, which
  schedule and run a deterministic state-transition task.
* `packages/apilib/request.go` — `CreateRequestTransaction` and `convertArgs`.

Ledger primitives (addresses, colors, balances) are opaque identifiers and are
modelled as natural numbers / integers.  Go maps that are keyed by address are
modelled as association lists in insertion order; every map in the analyzed
code is only observed through lookups and through properties that are
independent of Go's randomized iteration order (this is noted at each use).
Code of the repository that is not part of the given sources (the transaction
builder, the `state` package, hashing) is modelled from the specification and
is marked as such in its doc comment.
-/

namespace Wasp

/-- Ledger address (opaque fixed-size identifier), modelled as a natural. -/
abbrev Address := Nat

/-- Token color identifier, modelled as a natural. -/
abbrev Color := Nat

/-- The reserved sentinel color `balance.ColorNew` ("newly minted"). -/
def ColorNew : Color := 0

/-- A colored balance: `balance.Balance` is a (color, value) pair. -/
structure Balance where
  color : Color
  value : Int
deriving DecidableEq

/-- The state block of a smart-contract transaction (only the color is
relevant to the analyzed code paths). -/
structure StateBlock where
  color : Color
deriving DecidableEq

/-- A request block; only the target address is relevant to the analyzer. -/
structure RequestBlock where
  addr : Address
deriving DecidableEq

/-- A sealed smart-contract transaction as seen by `calcProperties`:
the distinct input addresses in iteration order, the ordered output map
(each address appears once, as in the underlying ordered map), the optional
state block, the request blocks, and the transaction id. -/
structure Transaction where
  inputAddresses : List Address
  outputs : List (Address × List Balance)
  state : Option StateBlock
  requests : List RequestBlock
  txId : Nat
deriving DecidableEq

/-- `util.BalanceOfColor`: the total value of the given color in a balance
list.  Modelled from the spec: the helper is not among the given sources; the
spec's minted-token accounting sums all amounts of a color at an output. -/
def balanceOfColor : List Balance → Color → Int
  | [], _ => 0
  | b :: rest, c => (if b.color = c then b.value else 0) + balanceOfColor rest c

/-- Association-list lookup with Go's zero-value default, mirroring
`m[key]` on a `map[address.Address]int64`. -/
def assocGet : List (Address × Int) → Address → Int
  | [], _ => 0
  | (x, v) :: rest, a => if x = a then v else assocGet rest a

/-- Association-list membership test, mirroring `_, ok := m[key]`. -/
def assocHas : List (Address × Int) → Address → Bool
  | [], _ => false
  | (x, _) :: rest, a => if x = a then true else assocHas rest a

/-- Association-list update, mirroring `m[key] = v` (replace if present,
append otherwise). -/
def assocSet : List (Address × Int) → Address → Int → List (Address × Int)
  | [], a, v => [(a, v)]
  | (x, w) :: rest, a, v =>
    if x = a then (a, v) :: rest else (x, w) :: assocSet rest a v

/-- The `Properties` record computed by `calcProperties`, with the same
fields as the Go struct. -/
structure Properties where
  sender : Address
  isState : Bool
  isOrigin : Bool
  stateAddress : Address
  stateColor : Color
  numMintedTokensByAddr : List (Address × Int)
  numMintedTokens : Int
deriving DecidableEq

/-- `analyzeSender`: scan the input addresses; a second distinct address is an
error; with no input address the sender keeps the Go zero value. -/
def analyzeSender (tx : Transaction) : Except String Address :=
  match tx.inputAddresses with
  | [] => .ok 0
  | [a] => .ok a
  | _ => .error "smart contract transaction must contain exactly 1 input address"

/-- `countMintedTokens`: accumulate, per output address and in total, the
amounts of the reserved new color; an entry is created only when the amount
at that output is nonzero. -/
def countMintedTokens (tx : Transaction) : List (Address × Int) × Int :=
  tx.outputs.foldl
    (fun acc p =>
      let v := balanceOfColor p.2 ColorNew
      if v ≠ 0 then (assocSet acc.1 p.1 (assocGet acc.1 p.1 + v), acc.2 + v)
      else acc)
    ([], 0)

/-- The output scan of `analyzeStateBlock` for an already-assigned state
color: add each output's amount of that color to the running sum `v`, fail as
soon as the sum exceeds 1, and (otherwise) overwrite the candidate state
address with the current output's address. -/
def stateOutLoop (c : Color) : Int → Address → List (Address × List Balance) →
    Except String Address
  | _, sa, [] => .ok sa
  | v, _, (addr, bals) :: rest =>
    let v2 := v + balanceOfColor bals c
    if v2 > 1 then .error "sc transaction must contain exactly one sc token output"
    else stateOutLoop c v2 addr rest

/-- `analyzeStateBlock`: returns `(isState, isOrigin, stateAddress,
stateColor)`; fields that the Go code leaves untouched keep their zero
values.  In the origin branch the minted-token map has at most one entry
after the length check, so taking its head matches Go's map iteration. -/
def analyzeStateBlock (tx : Transaction) (sender : Address)
    (minted : List (Address × Int)) : Except String (Bool × Bool × Address × Color) :=
  match tx.state with
  | none => .ok (false, false, 0, 0)
  | some sb =>
    if sb.color ≠ ColorNew then
      match stateOutLoop sb.color 0 0 tx.outputs with
      | .error e => .error e
      | .ok sa =>
        if sa ≠ sender then .error "SC token must move from the SC address to itself"
        else .ok (true, false, sa, sb.color)
    else
      if minted.length > 1 then
        .error "in the origin transaction tokens can be minted only to 1 address"
      else
        let sa := match minted with
          | [] => 0
          | (a, _) :: _ => a
        .ok (true, true, sa, tx.txId)

/-- `numReqByAddr` accumulator: count the request blocks per target address
(`m[addr] = m[addr] + 1` over the requests in order). -/
def numReqByAddrAux (m : List (Address × Int)) : List RequestBlock → List (Address × Int)
  | [] => m
  | r :: rest => numReqByAddrAux (assocSet m r.addr (assocGet m r.addr + 1)) rest

/-- The per-address request count map built by `analyzeRequestBlocks`. -/
def numReqByAddr (reqs : List RequestBlock) : List (Address × Int) :=
  numReqByAddrAux [] reqs

/-- `analyzeRequestBlocks`: a transaction with no state block needs at least
one request; for an origin transaction, all requests must target the single
minted address; finally every target address needs at least as many minted
tokens as requests.  The Go conservation loop iterates the request-count map
in randomized order but errors exactly when some entry violates the bound,
which is what `List.any` over the insertion-ordered list computes. -/
def analyzeRequestBlocks (isState isOrigin : Bool) (stateAddress : Address)
    (minted : List (Address × Int)) (tx : Transaction) : Except String Unit :=
  if isState = false ∧ tx.requests = [] then
    .error "smart contract transaction which does not contain state block must contain at least one request"
  else if tx.requests = [] then .ok ()
  else
    if isOrigin = true ∧ ((numReqByAddr tx.requests).length ≠ 1
        ∨ assocHas (numReqByAddr tx.requests) stateAddress = false) then
      .error "in the origin transaction all requests must have target only newly created smart contract"
    else if (numReqByAddr tx.requests).any (fun p => decide (assocGet minted p.1 < p.2)) then
      .error ""
    else .ok ()

/-- `calcProperties`: run the four analysis stages in order, short-circuiting
on the first error, and assemble the `Properties` record. -/
def calcProperties (tx : Transaction) : Except String Properties :=
  match analyzeSender tx with
  | .error e => .error e
  | .ok sender =>
    match analyzeStateBlock tx sender (countMintedTokens tx).1 with
    | .error e => .error e
    | .ok (isState, isOrigin, sa, sc) =>
      match analyzeRequestBlocks isState isOrigin sa (countMintedTokens tx).1 tx with
      | .error e => .error e
      | .ok _ =>
        .ok { sender := sender, isState := isState, isOrigin := isOrigin,
              stateAddress := sa, stateColor := sc,
              numMintedTokensByAddr := (countMintedTokens tx).1,
              numMintedTokens := (countMintedTokens tx).2 }

/-- Accessor `IsState`. -/
def Properties.IsState (p : Properties) : Bool := p.isState

/-- Accessor `IsOrigin` — as in the source, it returns the `isState` field,
not the `isOrigin` field. -/
def Properties.IsOrigin (p : Properties) : Bool := p.isState

/-- Accessor `MustStateAddress`; the Go code panics when the transaction is
not a state transaction, modelled as `none`. -/
def Properties.MustStateAddress (p : Properties) : Option Address :=
  if p.isState then some p.stateAddress else none

/-- Accessor `MustStateColor`; panic on a non-state transaction is modelled
as `none`. -/
def Properties.MustStateColor (p : Properties) : Option Color :=
  if p.isState then some p.stateColor else none

/-- A sealed transaction (one input, one request paid by one minted token)
on which property analysis succeeds, instantiating `isOrigin_aliases_isState`. -/
def txAlias : Transaction :=
  { inputAddresses := [1]
    outputs := [(2, [{ color := ColorNew, value := 1 }])]
    state := none
    requests := [{ addr := 2 }]
    txId := 9 }

/-! ### C2: state-invariant check for an already-assigned state color

The source comment (line 86) states the intent: "it is not origin. Must
contain exactly one output with value 1 of that color".  The code, however,
only rejects a running sum exceeding 1 and compares the address of the *last*
output (not of the color-carrying output) with the sender.  It therefore
accepts a transaction that carries *zero* outputs of the state color. -/

/-- A sealed transaction: one input from address 1, a state block with the
already-assigned color 5, and a single (colorless) output back to address 1.
It carries no output of color 5 at all. -/
def txNoStateToken : Transaction :=
  { inputAddresses := [1]
    outputs := [(1, [])]
    state := some { color := 5 }
    requests := []
    txId := 7 }

/-- A `Properties` value that is not a state transaction. -/
def propsNonState : Properties :=
  { sender := 1, isState := false, isOrigin := false, stateAddress := 3,
    stateColor := 4, numMintedTokensByAddr := [], numMintedTokens := 0 }

/-- A `Properties` value that is a state transaction. -/
def propsState : Properties :=
  { sender := 1, isState := true, isOrigin := false, stateAddress := 3,
    stateColor := 4, numMintedTokensByAddr := [], numMintedTokens := 0 }

/-- Keys of an association list are pairwise distinct: each head key is
absent from its tail. -/
def keysNodup : List (Address × Int) → Prop
  | [] => True
  | (x, _) :: rest => assocHas rest x = false ∧ keysNodup rest

/-- The number of request blocks addressed to a given target (as an `int64`
count, matching the Go map values). -/
def countReqTo : List RequestBlock → Address → Int
  | [], _ => 0
  | r :: rest, a => (if r.addr = a then 1 else 0) + countReqTo rest a

/-- A transaction with one request to address 2 and no minted tokens:
conservation is violated. -/
def txReqViol : Transaction :=
  { inputAddresses := [1]
    outputs := []
    state := none
    requests := [{ addr := 2 }]
    txId := 3 }

/-! ## The `state` package and hashing, modelled from the spec

The `state` package (virtual states, state updates, batches) and the
`hashing` package are part of the repository but not among the given source
files; they are modelled from the spec (§3 Data Model, §4.5). -/

/-- A state update: the delta produced by processing one request, tagged with
the originating request id and a timestamp (§3).  `data` stands for the
opaque mutation content computed by the processor. -/
structure StateUpdate where
  reqId : Nat
  timestamp : Int
  data : Nat
deriving DecidableEq

/-- Modelled from the spec: a virtual state has a monotonically increasing
state index and a content hash; the content is represented by the list of
applied updates, plus the timestamp of the last applied update. -/
structure VState where
  stateIndex : Nat
  appliedLog : List StateUpdate
  timestamp : Int
deriving DecidableEq

/-- Modelled from the spec: applying one state update appends it to the
state content and adopts its timestamp. -/
def applyStateUpdate (vs : VState) (su : StateUpdate) : VState :=
  { stateIndex := vs.stateIndex
    appliedLog := vs.appliedLog ++ [su]
    timestamp := su.timestamp }

/-- A batch: an ordered sequence of state updates with one target state
index (§3). -/
structure Batch where
  stateIndex : Nat
  updates : List StateUpdate
deriving DecidableEq

/-- Modelled from the spec: `state.NewBatch` — a batch is a *non-empty*
sequence of state updates (§3); zero state updates are a fatal error
(§4.5 step 3). -/
def NewBatch (sus : List StateUpdate) : Except String Batch :=
  if sus = [] then .error "batch cannot be empty"
  else .ok { stateIndex := 0, updates := sus }

/-- `Batch.WithStateIndex`. -/
def Batch.withStateIndex (b : Batch) (i : Nat) : Batch := { b with stateIndex := i }

/-- Modelled from the spec: applying a batch advances the virtual state by
exactly one index (§3) and applies the updates in order. -/
def applyBatch (vs : VState) (b : Batch) : Except String VState :=
  if b.stateIndex = vs.stateIndex + 1 then
    .ok { b.updates.foldl applyStateUpdate vs with stateIndex := b.stateIndex }
  else .error "batch state index mismatch"

/-- Injective encoding of an integer as a natural, used by the modelled
content hash. -/
def intCode (i : Int) : Nat := if i < 0 then 2 * i.natAbs + 1 else 2 * i.natAbs

/-- A deterministic mixing function on naturals for the modelled hashes. -/
def mixNat (a b : Nat) : Nat := (a + b) * (a + b) + a + 1

/-- Encoding of one state update for the modelled content hash. -/
def suCode (su : StateUpdate) : Nat :=
  mixNat su.reqId (mixNat (intCode su.timestamp) su.data)

/-- Modelled from the spec: the state-commitment hash is an opaque
deterministic function of the state content; any concrete deterministic
function serves the claims, which never depend on particular hash values. -/
def VState.hash (vs : VState) : Nat :=
  mixNat vs.stateIndex (vs.appliedLog.foldl (fun h su => mixNat h (suCode su)) 0)

/-! ## The older `runvm` plugin (the unnamed source file): `runVM`

`runVM` processes the requests in order; for each request it first erases one
unit of the request token color (the id of the request's originating
transaction) from the chain address, breaking out of the loop when the erase
fails; it then runs the processor, collects the state update and applies it
to the working (cloned) variable state.  Afterwards it builds the batch from
the collected updates, applies it to the task's variable state and finalizes
the result transaction. -/

/-- A request reference of the old runner: the originating transaction id
(which is also the request token color) and the request id. -/
structure Request where
  txId : Nat
  reqId : Nat
deriving DecidableEq

/-- The old transaction builder, reduced to its balance sheet keyed by
(address, color).  Modelled from the spec (§4.1): the builder tracks
spendable colored balances per address. -/
structure TxBuilderO where
  balances : List ((Nat × Nat) × Int)
deriving DecidableEq

/-- Balance lookup in the old builder. -/
def tbGet : List ((Nat × Nat) × Int) → Nat × Nat → Int
  | [], _ => 0
  | (k, v) :: rest, key => if k = key then v else tbGet rest key

/-- Balance update in the old builder. -/
def tbSet : List ((Nat × Nat) × Int) → Nat × Nat → Int → List ((Nat × Nat) × Int)
  | [], key, v => [(key, v)]
  | (k, w) :: rest, key, v =>
    if k = key then (key, v) :: rest else (k, w) :: tbSet rest key v

/-- Modelled from the spec (§4.1 `erase_color`): burn `amount` of a colored
balance at an address; fails with insufficient balance when the address does
not hold that much of the color. -/
def EraseColor (b : TxBuilderO) (a : Nat) (c : Nat) (amount : Int) :
    Except String TxBuilderO :=
  if tbGet b.balances (a, c) < amount then .error "insufficient balance"
  else .ok { balances := tbSet b.balances (a, c) (tbGet b.balances (a, c) - amount) }

/-- The request loop of the old `runVM` (source lines 123-139): erase one
unit of the request token color, breaking out of the loop on failure; run the
processor (modelled as the function `proc` from the request and the current
variable state to the update content); collect the state update and apply it
to the working state.  Returns the final builder, the final working state and
the collected updates in order. -/
def runVMLoop (proc : Request → VState → Nat) (a : Nat) :
    TxBuilderO → VState → List Request → TxBuilderO × VState × List StateUpdate
  | tb, vs, [] => (tb, vs, [])
  | tb, vs, r :: rest =>
    match EraseColor tb a r.txId 1 with
    | .error _ => (tb, vs, [])
    | .ok tb2 =>
      let su : StateUpdate := { reqId := r.reqId, timestamp := 0, data := proc r vs }
      let out := runVMLoop proc a tb2 (applyStateUpdate vs su) rest
      (out.1, out.2.1, su :: out.2.2)

/-- The finalized transaction of the old runner, as produced by
`TxBuilder.Finalize(stateIndex, hash)` — modelled from the spec by its two
arguments. -/
structure ResultTxO where
  stateIndex : Nat
  stateHash : Nat
deriving DecidableEq

/-- The successful outcome of the old `runVM`: the result batch, the task's
variable state after the batch was applied to it, and the finalized
transaction. -/
structure RunVMRes where
  resultBatch : Batch
  variableState : VState
  resultTx : ResultTxO
deriving DecidableEq

/-- The old `runVM` (source lines 113-156): run the request loop on a clone
of the task's variable state, build a batch from the collected updates
(which can be fewer than the requests), stamp it with state index + 1, apply
it to the task's variable state and finalize the transaction from the
resulting index and hash.  Errors from batch construction or application are
returned; a processed prefix by itself is not an error. -/
def runVM (proc : Request → VState → Nat) (a : Nat) (txb : TxBuilderO)
    (vs0 : VState) (reqs : List Request) : Except String RunVMRes :=
  match NewBatch (runVMLoop proc a txb vs0 reqs).2.2 with
  | .error e => .error e
  | .ok b0 =>
    match applyBatch vs0 (b0.withStateIndex (vs0.stateIndex + 1)) with
    | .error e => .error e
    | .ok vsF =>
      .ok { resultBatch := b0.withStateIndex (vs0.stateIndex + 1)
            variableState := vsF
            resultTx := { stateIndex := vsF.stateIndex, stateHash := vsF.hash } }

/-! ## `plugins/runvm/plugin.go`: `RunComputationsAsync` and `runTask` -/

/-- One invocation of `runTheRequest`: the request id together with the
timestamp and entropy the VM context holds at that invocation. -/
structure VMCall where
  reqId : Nat
  timestamp : Int
  entropy : Nat
deriving DecidableEq

/-- The outcome of the request loop of `runTask`: the collected state
updates, the trace of `runTheRequest` invocations, and the final working
state, timestamp and entropy of the VM context. -/
structure TaskLoopOut where
  updates : List StateUpdate
  calls : List VMCall
  virtualState : VState
  timestamp : Int
  entropy : Nat
deriving DecidableEq

/-- The request loop of `runTask` (source lines 95-111): for each request,
create a state update stamped with the current timestamp, run the request
(modelled as `proc` from the request id, working state, timestamp and
entropy to the update content), apply the update to the working state, then
advance the timestamp by 1 when it is nonzero (a zero timestamp stays zero)
and replace the entropy by its hash (`hashE` stands for `hashing.HashData`,
which is not among the given sources).  Go's `int64` timestamp is modelled
as an unbounded integer; overflow of the nanosecond clock is out of scope.
`calls` records the arguments of each `runTheRequest` invocation. -/
def runTaskLoop (proc : Nat → VState → Int → Nat → Nat) (hashE : Nat → Nat) :
    VState → Int → Nat → List Nat → TaskLoopOut
  | vs, ts, ent, [] =>
    { updates := [], calls := [], virtualState := vs, timestamp := ts, entropy := ent }
  | vs, ts, ent, r :: rest =>
    let su : StateUpdate := { reqId := r, timestamp := ts, data := proc r vs ts ent }
    let out := runTaskLoop proc hashE (applyStateUpdate vs su)
        (if ts ≠ 0 then ts + 1 else ts) (hashE ent) rest
    { out with updates := su :: out.updates
               calls := { reqId := r, timestamp := ts, entropy := ent } :: out.calls }

/-- The result transaction of `runTask`, as produced by
`SetStateParams(stateIndex + 1, stateHash, vsClone.Timestamp())` followed by
`Build(false)` — modelled from the spec by the attached state parameters. -/
structure ResultTx where
  stateIndex : Nat
  stateHash : Nat
  timestamp : Int
deriving DecidableEq

/-- A VM task as submitted to `RunComputationsAsync`: chain address,
timestamp, entropy, the owned virtual-state snapshot, the ordered request
ids, the leader peer index, the spendable balances, and the result slots
filled in by the runner. -/
structure VMTask where
  address : Nat
  timestamp : Int
  entropy : Nat
  virtualState : VState
  requests : List Nat
  leaderPeerIndex : Nat
  balances : List (Nat × Int)
  resultBatch : Option Batch
  resultTransaction : Option ResultTx
deriving DecidableEq

/-- `runTask` (source lines 79-168): run the request loop on the VM context
(which `createVMContext` — not among the given sources — initializes,
modelled from the spec, with the task's timestamp, entropy and a clone of
the task's virtual state); report a fatal error when no state updates were
produced; build the batch, stamp it with the task snapshot's index + 1;
clone the task's original virtual state a second time, apply the batch to
that clone and take the resulting hash as the state commitment; finally
attach the state parameters and build the result transaction (the builder
internals and the final semantic re-check are not among the given sources
and are modelled from the spec as always succeeding — no claim concerns
them).  Returns the task with its result slots filled plus the outcome
passed to `OnFinish`. -/
def runTask (proc : Nat → VState → Int → Nat → Nat) (hashE : Nat → Nat)
    (ctx : VMTask) : VMTask × Except String Unit :=
  if (runTaskLoop proc hashE ctx.virtualState ctx.timestamp ctx.entropy ctx.requests).updates = [] then
    (ctx, .error "RunVM: no state updates were produced")
  else
    match NewBatch (runTaskLoop proc hashE ctx.virtualState ctx.timestamp ctx.entropy ctx.requests).updates with
    | .error e => (ctx, .error e)
    | .ok b0 =>
      match applyBatch ctx.virtualState (b0.withStateIndex (ctx.virtualState.stateIndex + 1)) with
      | .error e => (ctx, .error e)
      | .ok vsClone2 =>
        ({ ctx with
            resultBatch := some (b0.withStateIndex (ctx.virtualState.stateIndex + 1))
            resultTransaction := some { stateIndex := ctx.virtualState.stateIndex + 1
                                        stateHash := vsClone2.hash
                                        timestamp := vsClone2.timestamp } },
          .ok ())

/-- Events observable at task submission. -/
inductive SchedEvent where
  | builderConstructed
  | workerScheduled (chainAddress : Nat) (batchHash : Nat)
deriving DecidableEq

/-- Modelled from the spec (§4.4): `vm.BatchHash` is a deterministic
function of the ordered request ids, the timestamp and the leader index;
the claims never depend on particular hash values. -/
def BatchHash (reqids : List Nat) (ts : Int) (leader : Nat) : Nat :=
  mixNat (reqids.foldl mixNat 0) (mixNat (intCode ts) leader)

/-- Modelled from the spec (§4.1): `txbuilder.NewFromAddressBalances`
requires a usable (nonempty) balance set; the builder contents are not
needed by any claim about this function. -/
def NewFromAddressBalances (a : Nat) (balances : List (Nat × Int)) :
    Except String Unit :=
  if balances = [] then .error "no balances" else .ok ()

/-- `RunComputationsAsync` (source lines 55-76): reject a task with zero
requests before anything else; then construct the transaction builder from
the chain address balances; then register the background worker under the
task name derived from the chain address and the batch hash.  The returned
event list records, in order, the builder construction and the worker
registration; on the empty-request rejection neither happens and no
callback can ever be invoked for the task. -/
def RunComputationsAsync (ctx : VMTask) : List SchedEvent × Except String Unit :=
  if ctx.requests = [] then ([], .error "must be at least 1 request")
  else
    match NewFromAddressBalances ctx.address ctx.balances with
    | .error e => ([], .error e)
    | .ok _ =>
      ([SchedEvent.builderConstructed,
        SchedEvent.workerScheduled ctx.address
          (BatchHash ctx.requests ctx.timestamp ctx.leaderPeerIndex)],
        .ok ())

/-- The trivial processor used in concrete runs. -/
def procZero : Request → VState → Nat := fun _ _ => 0

/-- A concrete starting virtual state. -/
def vsInit : VState := { stateIndex := 4, appliedLog := [], timestamp := 100 }

/-- A builder with no balances at all. -/
def tbEmpty : TxBuilderO := { balances := [] }

/-- A builder holding exactly one unit of the request-token colors 5 and 6
at address 1 (and nothing of color 7). -/
def tbTwo : TxBuilderO := { balances := [((1, 5), 1), ((1, 6), 1)] }

/-- Three requests whose first two token erasures succeed and whose third
fails. -/
def reqsThree : List Request :=
  [{ txId := 5, reqId := 50 }, { txId := 6, reqId := 60 }, { txId := 7, reqId := 70 }]

/-- The trivial request processor for concrete `runTask` runs. -/
def cproc : Nat → VState → Int → Nat → Nat := fun _ _ _ _ => 0

/-- A concrete entropy hash function for concrete `runTask` runs. -/
def chash : Nat → Nat := fun n => n + 1

/-- A concrete task with one request, used to instantiate the `runTask`
theorems. -/
def ctxOne : VMTask :=
  { address := 1
    timestamp := 100
    entropy := 9
    virtualState := vsInit
    requests := [7]
    leaderPeerIndex := 0
    balances := [(0, 1)]
    resultBatch := none
    resultTransaction := none }

/-- A concrete task with zero requests. -/
def ctxEmpty : VMTask :=
  { address := 1
    timestamp := 100
    entropy := 9
    virtualState := vsInit
    requests := []
    leaderPeerIndex := 0
    balances := [(0, 1)]
    resultBatch := none
    resultTransaction := none }

/-! ## `packages/apilib/request.go`: `CreateRequestTransaction` and
`convertArgs` -/

/-- A request argument value, one constructor per type arm of the Go
`switch` in `convertArgs` (int, byte, int16, int32, int64, uint16, uint32,
uint64, string, byte slice, hash value, address, color) plus one for every
other type.  Go `int` is 64-bit on the target platforms.  Unsigned values
are carried as naturals, signed ones as integers; fixed-size ledger
primitives are carried as their byte encodings. -/
inductive ArgValue where
  | aInt (v : Int)
  | aByte (v : Nat)
  | aInt16 (v : Int)
  | aInt32 (v : Int)
  | aInt64 (v : Int)
  | aUint16 (v : Nat)
  | aUint32 (v : Nat)
  | aUint64 (v : Nat)
  | aString (s : String)
  | aBytes (b : List Nat)
  | aHashValue (b : List Nat)
  | aAddress (b : List Nat)
  | aColor (b : List Nat)
  | aOther (tag : Nat)
deriving DecidableEq

/-- A value stored into the kv map by the codec: an int64, a string, or raw
bytes. -/
inductive KVVal where
  | kInt64 (v : Int)
  | kString (s : String)
  | kBytes (b : List Nat)
deriving DecidableEq

/-- Reinterpretation of a Go `uint64` as an `int64` (two's complement), as
performed by the conversion `int64(vt)` without any range check. -/
def uint64ToInt64 (v : Nat) : Int :=
  if v % 2 ^ 64 < 2 ^ 63 then ((v % 2 ^ 64 : Nat) : Int)
  else ((v % 2 ^ 64 : Nat) : Int) - 2 ^ 64

/-- One arm of the `convertArgs` switch: every integer arm stores an int64
(the uint64 arm by reinterpretation), strings and byte slices store
themselves, ledger primitives store their byte encodings, anything else is
unrecognized. -/
def convertOne : ArgValue → Option KVVal
  | .aInt v => some (.kInt64 v)
  | .aByte v => some (.kInt64 (v : Int))
  | .aInt16 v => some (.kInt64 v)
  | .aInt32 v => some (.kInt64 v)
  | .aInt64 v => some (.kInt64 v)
  | .aUint16 v => some (.kInt64 (v : Int))
  | .aUint32 v => some (.kInt64 (v : Int))
  | .aUint64 v => some (.kInt64 (uint64ToInt64 v))
  | .aString s => some (.kString s)
  | .aBytes b => some (.kBytes b)
  | .aHashValue b => some (.kBytes b)
  | .aAddress b => some (.kBytes b)
  | .aColor b => some (.kBytes b)
  | .aOther _ => none

/-- Whether a value hits one of the integer arms of the switch. -/
def ArgValue.isIntegerTyped : ArgValue → Bool
  | .aInt _ => true
  | .aByte _ => true
  | .aInt16 _ => true
  | .aInt32 _ => true
  | .aInt64 _ => true
  | .aUint16 _ => true
  | .aUint32 _ => true
  | .aUint64 _ => true
  | _ => false

/-- `convertArgs` (source lines 118-155): convert every entry of the
argument map; the first unrecognized value makes the whole call return
nothing (the Go code returns a nil map).  Go map iteration order is
randomized, but whether a nil map is returned does not depend on the
order. -/
def convertArgs : List (String × ArgValue) → Option (List (String × KVVal))
  | [] => some []
  | (k, v) :: rest =>
    match convertOne v with
    | none => none
    | some kv =>
      match convertArgs rest with
      | none => none
      | some m => some ((k, kv) :: m)

/-- Events observable during `CreateRequestTransaction`: the node client
fetch of confirmed outputs, the successful build (seal) of the transaction,
and the two posting modes. -/
inductive ApiEvent where
  | getConfirmedOutputs
  | builtTransaction
  | postTransaction
  | postAndWaitConfirmation
deriving DecidableEq

/-- The parameters of one request block: target address, argument map, and
the total transfer cost (the colored amounts requested, pooled — enough for
the claims about this function, which never inspect individual colors). -/
structure BlockPar where
  target : Nat
  vars : List (String × ArgValue)
  cost : Int
deriving DecidableEq

/-- Modelled from the spec (§4.1 `add_request`): appending a request block
deducts the transfer plus one request-token unit from the builder's
remaining spendable balance and fails when it cannot be covered. -/
def addRequestBlockWithTransfer (remaining : Int) (bp : BlockPar) :
    Except String Int :=
  if remaining < bp.cost + 1 then .error "insufficient balance"
  else .ok (remaining - (bp.cost + 1))

/-- The request-building loop of `CreateRequestTransaction` (source lines
51-65): for each block, convert the arguments — a nil result aborts with the
"wrong arguments" error — then add the request block with its transfer. -/
def buildLoop (remaining : Int) : List BlockPar → Except String Int
  | [] => .ok remaining
  | bp :: rest =>
    match convertArgs bp.vars with
    | none => .error "wrong arguments"
    | some _ =>
      match addRequestBlockWithTransfer remaining bp with
      | .error e => .error e
      | .ok rem2 => buildLoop rem2 rest

/-- The built and signed transaction; only its existence matters to the
claims about this function, represented by the balance left in the
builder. -/
structure BuiltTx where
  remaining : Int
deriving DecidableEq

/-- `CreateRequestTransaction` (source lines 39-116): first fetch the
sender's confirmed outputs from the node client (a network interaction,
recorded as the first event); seed the builder from them
(`NewFromOutputBalances`, modelled from the spec as requiring a positive
balance); run the request-building loop; build and sign the transaction;
then, depending on the flags, return without posting, post, or post and
wait.  The final semantic re-check and the publisher subscription are not
among the given sources and are not needed by the claims about this
function.  `fetched` is the node client's response. -/
def CreateRequestTransaction (fetched : Except String Int)
    (blocks : List BlockPar) (post waitConfirm : Bool) :
    List ApiEvent × Except String BuiltTx :=
  match fetched with
  | .error e =>
    ([.getConfirmedOutputs], .error ("cannot get outputs from the node: " ++ e))
  | .ok bal =>
    if bal ≤ 0 then ([.getConfirmedOutputs], .error "wrong balances")
    else
      match buildLoop bal blocks with
      | .error e => ([.getConfirmedOutputs], .error e)
      | .ok rem =>
        if post = false then
          ([.getConfirmedOutputs, .builtTransaction], .ok { remaining := rem })
        else if waitConfirm = false then
          ([.getConfirmedOutputs, .builtTransaction, .postTransaction],
            .ok { remaining := rem })
        else
          ([.getConfirmedOutputs, .builtTransaction, .postAndWaitConfirmation],
            .ok { remaining := rem })

/-- A block whose argument map holds a value of an unrecognized type. -/
def bpBadArg : BlockPar :=
  { target := 1, vars := [("x", ArgValue.aOther 0)], cost := 0 }

/-! ### C1: the `IsOrigin` accessor is aliased to `IsState` -/

/-- C1: for every `Properties` value computed from a sealed transaction, the
accessor `IsOrigin` returns the same value as `IsState` — the two accessors
are aliased (both return the `isState` field). -/
theorem isOrigin_aliases_isState (tx : Transaction) (p : Properties)
    (h : calcProperties tx = .ok p) : p.IsOrigin = p.IsState := rfl

/-- Witness for C1 at a concrete transaction accepted by `calcProperties`. -/
theorem isOrigin_aliases_isState_witness :
    ∃ p, calcProperties txAlias = Except.ok p ∧ p.IsOrigin = p.IsState := by
  refine ⟨{ sender := 1, isState := false, isOrigin := false, stateAddress := 0,
            stateColor := 0, numMintedTokensByAddr := [(2, 1)], numMintedTokens := 1 },
          rfl, isOrigin_aliases_isState txAlias _ rfl⟩

/-- C2: the analyzer accepts `txNoStateToken` as a state transaction even
though the transaction carries no output of the state color 5 — contradicting
both the claim and the source's own comment, which require exactly one output
of that color with amount 1. -/
theorem analyzer_accepts_missing_state_token :
    calcProperties txNoStateToken =
      Except.ok { sender := 1, isState := true, isOrigin := false,
                  stateAddress := 1, stateColor := 5,
                  numMintedTokensByAddr := [], numMintedTokens := 0 }
    ∧ (txNoStateToken.outputs.foldl (fun s p => s + balanceOfColor p.2 5) 0 = 0) :=
  ⟨rfl, rfl⟩

/-! ### C8: loud failure of the state-only accessors -/

/-- C8: on a `Properties` value with `IsState` false, `MustStateAddress` and
`MustStateColor` fail loudly (panic, modelled `none`) instead of returning a
default; with `IsState` true they return the state address and state color
without panicking. -/
theorem mustState_accessors_contract (p : Properties) :
    (p.IsState = false → p.MustStateAddress = none ∧ p.MustStateColor = none)
    ∧ (p.IsState = true →
        p.MustStateAddress = some p.stateAddress
        ∧ p.MustStateColor = some p.stateColor) := by
  unfold Properties.IsState Properties.MustStateAddress Properties.MustStateColor
  cases h : p.isState <;> simp

/-- Witness for C8 at concrete `Properties` values of both kinds. -/
theorem mustState_accessors_contract_witness :
    (propsNonState.MustStateAddress = none ∧ propsNonState.MustStateColor = none)
    ∧ (propsState.MustStateAddress = some propsState.stateAddress
        ∧ propsState.MustStateColor = some propsState.stateColor) :=
  ⟨(mustState_accessors_contract propsNonState).1 rfl,
   (mustState_accessors_contract propsState).2 rfl⟩

/-! ### Association-list lemmas for the request/minted token accounting -/

/-- Lookup after an update: the updated key reads the new value, any other
key is unaffected. -/
theorem assocGet_assocSet (m : List (Address × Int)) (k : Address) (v : Int)
    (a : Address) :
    assocGet (assocSet m k v) a = if k = a then v else assocGet m a := by
  induction m with
  | nil => simp [assocSet, assocGet]
  | cons p rest ih =>
    obtain ⟨x, w⟩ := p
    by_cases hx : x = k
    · subst hx
      by_cases hka : x = a <;> simp [assocSet, assocGet, hka]
    · by_cases hxa : x = a
      · subst hxa
        have hka : ¬ k = x := fun h => hx h.symm
        simp [assocSet, hx, assocGet, hka]
      · simp [assocSet, hx, assocGet, hxa, ih]

/-- Membership test after an update. -/
theorem assocHas_assocSet (m : List (Address × Int)) (k : Address) (v : Int)
    (a : Address) :
    assocHas (assocSet m k v) a = if k = a then true else assocHas m a := by
  induction m with
  | nil => simp [assocSet, assocHas]
  | cons p rest ih =>
    obtain ⟨x, w⟩ := p
    by_cases hx : x = k
    · subst hx
      by_cases hka : x = a <;> simp [assocSet, assocHas, hka]
    · by_cases hxa : x = a
      · subst hxa
        have hka : ¬ k = x := fun h => hx h.symm
        simp [assocSet, hx, assocHas, hka]
      · simp [assocSet, hx, assocHas, hxa, ih]

/-- A key that tests present is paired with its lookup value in the list. -/
theorem mem_of_assocHas (m : List (Address × Int)) (a : Address)
    (h : assocHas m a = true) : (a, assocGet m a) ∈ m := by
  induction m with
  | nil => simp [assocHas] at h
  | cons p rest ih =>
    obtain ⟨x, w⟩ := p
    by_cases hx : x = a
    · subst hx
      simp [assocGet]
    · simp only [assocHas, if_neg hx] at h
      simp only [assocGet, if_neg hx]
      exact List.mem_cons_of_mem _ (ih h)

/-- Any pair in the list makes its key test present. -/
theorem assocHas_of_mem (m : List (Address × Int)) (a : Address) (n : Int)
    (h : (a, n) ∈ m) : assocHas m a = true := by
  induction m with
  | nil => simp at h
  | cons p rest ih =>
    obtain ⟨x, w⟩ := p
    by_cases hx : x = a
    · simp [assocHas, hx]
    · rcases List.mem_cons.mp h with h | h
      · exact absurd (congrArg Prod.fst h).symm hx
      · simp only [assocHas, if_neg hx]
        exact ih h

/-- Updating preserves key uniqueness. -/
theorem keysNodup_assocSet (m : List (Address × Int)) (k : Address) (v : Int)
    (h : keysNodup m) : keysNodup (assocSet m k v) := by
  induction m with
  | nil => exact ⟨rfl, trivial⟩
  | cons p rest ih =>
    obtain ⟨x, w⟩ := p
    obtain ⟨hhd, htl⟩ := h
    by_cases hx : x = k
    · subst hx
      simp only [assocSet, if_pos rfl]
      exact ⟨hhd, htl⟩
    · simp only [assocSet, if_neg hx]
      refine ⟨?_, ih htl⟩
      rw [assocHas_assocSet]
      have hkx : ¬ k = x := fun h => hx h.symm
      simp [hkx, hhd]

/-- With unique keys, a pair in the list is exactly what lookup returns. -/
theorem assocGet_of_mem_nodup (m : List (Address × Int)) (a : Address) (n : Int)
    (hnd : keysNodup m) (h : (a, n) ∈ m) : assocGet m a = n := by
  induction m with
  | nil => simp at h
  | cons p rest ih =>
    obtain ⟨x, w⟩ := p
    obtain ⟨hhd, htl⟩ := hnd
    rcases List.mem_cons.mp h with h | h
    · injection h with h1 h2
      subst h1
      subst h2
      simp [assocGet]
    · by_cases hx : x = a
      · subst hx
        rw [assocHas_of_mem rest x n h] at hhd
        cases hhd
      · simp only [assocGet, if_neg hx]
        exact ih htl h

/-- The request-count accumulator adds `countReqTo` on top of the lookups of
the starting map. -/
theorem assocGet_numReqByAddrAux (reqs : List RequestBlock) :
    ∀ (m : List (Address × Int)) (a : Address),
      assocGet (numReqByAddrAux m reqs) a = assocGet m a + countReqTo reqs a := by
  induction reqs with
  | nil => intro m a; simp [numReqByAddrAux, countReqTo]
  | cons r rest ih =>
    intro m a
    rw [numReqByAddrAux, ih, assocGet_assocSet, countReqTo]
    by_cases h : r.addr = a
    · simp [h, add_assoc]
    · simp [h]

/-- A key is present in the request-count accumulator exactly when it was
present initially or is the target of one of the requests. -/
theorem assocHas_numReqByAddrAux (reqs : List RequestBlock) :
    ∀ (m : List (Address × Int)) (a : Address),
      assocHas (numReqByAddrAux m reqs) a = true ↔
        (assocHas m a = true ∨ ∃ r ∈ reqs, r.addr = a) := by
  induction reqs with
  | nil => intro m a; simp [numReqByAddrAux]
  | cons r rest ih =>
    intro m a
    rw [numReqByAddrAux, ih, assocHas_assocSet]
    by_cases h : r.addr = a
    · constructor
      · intro _
        exact Or.inr ⟨r, List.mem_cons_self r rest, h⟩
      · intro _
        exact Or.inl (by simp [h])
    · simp only [if_neg h, List.mem_cons]
      constructor
      · rintro (hm | ⟨r', hr', ha'⟩)
        · exact Or.inl hm
        · exact Or.inr ⟨r', Or.inr hr', ha'⟩
      · rintro (hm | ⟨r', hr' | hr', ha'⟩)
        · exact Or.inl hm
        · exact absurd (hr' ▸ ha') h
        · exact Or.inr ⟨r', hr', ha'⟩

/-- The request-count accumulator preserves key uniqueness. -/
theorem keysNodup_numReqByAddrAux (reqs : List RequestBlock) :
    ∀ m : List (Address × Int), keysNodup m → keysNodup (numReqByAddrAux m reqs) := by
  induction reqs with
  | nil => intro m h; exact h
  | cons r rest ih =>
    intro m h
    exact ih _ (keysNodup_assocSet m r.addr _ h)

/-! ### C7: request-token conservation -/

/-- If some request target has fewer minted tokens than requests, the
conservation loop of `analyzeRequestBlocks` (or the origin check before it)
rejects the transaction. -/
theorem analyzeRequestBlocks_errors_of_violation
    (isState isOrigin : Bool) (sa : Address) (minted : List (Address × Int))
    (tx : Transaction) (h1 : tx.requests ≠ [])
    (hviol : ∃ a, (∃ r ∈ tx.requests, r.addr = a) ∧
      assocGet minted a < countReqTo tx.requests a) :
    ∃ e, analyzeRequestBlocks isState isOrigin sa minted tx = Except.error e := by
  obtain ⟨a, hmem, hlt⟩ := hviol
  have hhas : assocHas (numReqByAddr tx.requests) a = true :=
    (assocHas_numReqByAddrAux tx.requests [] a).mpr (Or.inr hmem)
  have hpair : (a, assocGet (numReqByAddr tx.requests) a) ∈ numReqByAddr tx.requests :=
    mem_of_assocHas _ _ hhas
  have hcnt : assocGet (numReqByAddr tx.requests) a = countReqTo tx.requests a := by
    rw [numReqByAddr, assocGet_numReqByAddrAux]
    simp [assocGet]
  have hany : (numReqByAddr tx.requests).any
      (fun p => decide (assocGet minted p.1 < p.2)) = true :=
    List.any_eq_true.mpr ⟨(a, assocGet (numReqByAddr tx.requests) a), hpair,
      decide_eq_true (by rw [hcnt]; exact hlt)⟩
  unfold analyzeRequestBlocks
  rw [if_neg (fun h => h1 h.2), if_neg h1]
  by_cases hog : isOrigin = true ∧ ((numReqByAddr tx.requests).length ≠ 1
      ∨ assocHas (numReqByAddr tx.requests) sa = false)
  · rw [if_pos hog]
    exact ⟨_, rfl⟩
  · rw [if_neg hog, if_pos hany]
    exact ⟨_, rfl⟩

/-- If every request target has at least as many minted tokens as requests,
the conservation loop passes and a non-origin analysis of the request blocks
succeeds. -/
theorem analyzeRequestBlocks_ok_of_conserved (isState : Bool) (sa : Address)
    (minted : List (Address × Int)) (tx : Transaction) (h1 : tx.requests ≠ [])
    (hcons : ∀ a, (∃ r ∈ tx.requests, r.addr = a) →
      countReqTo tx.requests a ≤ assocGet minted a) :
    analyzeRequestBlocks isState false sa minted tx = Except.ok () := by
  have hany : ¬ ((numReqByAddr tx.requests).any
      (fun p => decide (assocGet minted p.1 < p.2)) = true) := by
    rw [List.any_eq_true]
    rintro ⟨⟨k, n⟩, hp, hdec⟩
    have hkmem : ∃ r ∈ tx.requests, r.addr = k := by
      have hk := assocHas_of_mem _ _ _ hp
      rcases (assocHas_numReqByAddrAux tx.requests [] k).mp hk with h | h
      · simp [assocHas] at h
      · exact h
    have hval : assocGet (numReqByAddr tx.requests) k = n :=
      assocGet_of_mem_nodup _ _ _
        (keysNodup_numReqByAddrAux tx.requests [] trivial) hp
    have hcount : n = countReqTo tx.requests k := by
      rw [← hval, numReqByAddr, assocGet_numReqByAddrAux]
      simp [assocGet]
    have hlt := of_decide_eq_true hdec
    rw [hcount] at hlt
    exact absurd (hcons k hkmem) (not_le.mpr hlt)
  unfold analyzeRequestBlocks
  rw [if_neg (fun h => h1 h.2), if_neg h1,
    if_neg (fun h => absurd h.1 (by decide)), if_neg hany]

/-- C7: for every sealed transaction with at least one request block,
property analysis fails whenever some request target address has more request
blocks than newly minted tokens at that address; and (past this check) a
non-origin request analysis succeeds whenever every target address has at
least as many minted tokens as requests. -/
theorem request_token_conservation (tx : Transaction) (h1 : tx.requests ≠ []) :
    ((∃ a, (∃ r ∈ tx.requests, r.addr = a) ∧
        assocGet (countMintedTokens tx).1 a < countReqTo tx.requests a) →
      ∃ e, calcProperties tx = Except.error e)
    ∧ (∀ (st : Bool) (sa : Address) (minted : List (Address × Int)),
        (∀ a, (∃ r ∈ tx.requests, r.addr = a) →
          countReqTo tx.requests a ≤ assocGet minted a) →
        analyzeRequestBlocks st false sa minted tx = Except.ok ()) := by
  constructor
  · intro hviol
    cases hcp : calcProperties tx with
    | error e => exact ⟨e, rfl⟩
    | ok p =>
      exfalso
      unfold calcProperties at hcp
      split at hcp
      · cases hcp
      · split at hcp
        · cases hcp
        · rename_i sender hs st og sa sc hsb
          split at hcp
          · cases hcp
          · rename_i u hreq
            obtain ⟨e, he⟩ := analyzeRequestBlocks_errors_of_violation st og sa
              (countMintedTokens tx).1 tx h1 hviol
            rw [he] at hreq
            cases hreq
  · intro st sa minted hcons
    exact analyzeRequestBlocks_ok_of_conserved st sa minted tx h1 hcons

/-- Witness for C7: the violating transaction is rejected, and the same
request set passes a non-origin analysis once 5 tokens are minted to the
target. -/
theorem request_token_conservation_witness :
    (∃ e, calcProperties txReqViol = Except.error e)
    ∧ analyzeRequestBlocks true false 0 [(2, 5)] txReqViol = Except.ok () :=
  ⟨(request_token_conservation txReqViol (by decide)).1
      ⟨2, ⟨{ addr := 2 }, by decide, rfl⟩, by decide⟩,
   (request_token_conservation txReqViol (by decide)).2 true 0 [(2, 5)]
     (by rintro a ⟨r, hr, rfl⟩
         have hr2 : r = { addr := 2 } := by simpa [txReqViol] using hr
         subst hr2
         decide)⟩

/-! ### C3: truncation of the batch on insufficient request-token balance -/

/-- If the first `j` requests all processed (the run on the taken prefix
collected `j` updates) and erasing the request token of request `j + 1`
fails on the builder state reached after the prefix, then the full run
collects exactly the updates of the prefix run. -/
theorem runVMLoop_stops (proc : Request → VState → Nat) (a : Nat) :
    ∀ (j : Nat) (reqs : List Request) (tb : TxBuilderO) (vs : VState)
      (hj : j < reqs.length),
      (runVMLoop proc a tb vs (reqs.take j)).2.2.length = j →
      (∃ e, EraseColor (runVMLoop proc a tb vs (reqs.take j)).1 a
        (reqs.get ⟨j, hj⟩).txId 1 = Except.error e) →
      (runVMLoop proc a tb vs reqs).2.2 = (runVMLoop proc a tb vs (reqs.take j)).2.2 := by
  intro j
  induction j with
  | zero =>
    intro reqs tb vs hj hlen hfail
    cases reqs with
    | nil => simp at hj
    | cons r rest =>
      obtain ⟨e, he⟩ := hfail
      simp only [List.take_zero, runVMLoop, List.get] at he ⊢
      simp [he]
  | succ j ih =>
    intro reqs tb vs hj hlen hfail
    cases reqs with
    | nil => simp at hj
    | cons r rest =>
      simp only [List.take_succ_cons] at hlen hfail ⊢
      cases he : EraseColor tb a r.txId 1 with
      | error e =>
        simp [runVMLoop, he] at hlen
      | ok tb2 =>
        simp only [runVMLoop, he] at hlen hfail ⊢
        have hj2 : j < rest.length := by simpa using hj
        have := ih rest tb2
          (applyStateUpdate vs { reqId := r.reqId, timestamp := 0, data := proc r vs })
          hj2 (by simpa using hlen) (by simpa using hfail)
        simpa using this

/-- C3 (amended): if erasing one unit of the request token color fails at
the k-th request with k at least 2, `runVM` stops there, the resulting batch
carries exactly the k - 1 state updates of the earlier requests in order,
and no error is raised for the batch as a whole. -/
theorem runVM_truncates (proc : Request → VState → Nat) (a : Nat)
    (txb : TxBuilderO) (vs0 : VState) (reqs : List Request) (k : Nat)
    (hk : 2 ≤ k) (hlt : k - 1 < reqs.length)
    (hdone : (runVMLoop proc a txb vs0 (reqs.take (k - 1))).2.2.length = k - 1)
    (hfail : ∃ e, EraseColor (runVMLoop proc a txb vs0 (reqs.take (k - 1))).1 a
      (reqs.get ⟨k - 1, hlt⟩).txId 1 = Except.error e) :
    ∃ res, runVM proc a txb vs0 reqs = Except.ok res
      ∧ res.resultBatch.updates = (runVMLoop proc a txb vs0 (reqs.take (k - 1))).2.2
      ∧ res.resultBatch.updates.length = k - 1 := by
  have heq := runVMLoop_stops proc a (k - 1) reqs txb vs0 hlt hdone hfail
  have hlen : (runVMLoop proc a txb vs0 reqs).2.2.length = k - 1 := by
    rw [heq]
    exact hdone
  have hne : (runVMLoop proc a txb vs0 reqs).2.2 ≠ [] := by
    intro hnil
    rw [hnil] at hlen
    simp at hlen
    omega
  simp only [runVM, NewBatch, if_neg hne, applyBatch, Batch.withStateIndex]
  simp only [eq_self_iff_true, if_true]
  exact ⟨_, rfl, heq, hlen⟩

/-- C3 counterexample to the claim at k = 1: when already the first erase
fails for insufficient balance, the old runner does not return a successful
empty truncation — building the empty batch raises an error for the batch
as a whole. -/
theorem runVM_firstFail_errors :
    (∃ e, EraseColor tbEmpty 1 5 1 = Except.error e)
    ∧ runVM procZero 1 tbEmpty vsInit [{ txId := 5, reqId := 50 }] =
        Except.error "batch cannot be empty" :=
  ⟨⟨"insufficient balance", rfl⟩, rfl⟩

/-- Witness for C3 (amended) at k = 3: the batch has exactly 2 updates and
`runVM` succeeds. -/
theorem runVM_truncates_witness :
    ∃ res, runVM procZero 1 tbTwo vsInit reqsThree = Except.ok res
      ∧ res.resultBatch.updates = (runVMLoop procZero 1 tbTwo vsInit (reqsThree.take 2)).2.2
      ∧ res.resultBatch.updates.length = 2 :=
  runVM_truncates procZero 1 tbTwo vsInit reqsThree 3 (by decide) (by decide)
    (by decide) ⟨"insufficient balance", rfl⟩

/-! ### C4: per-request timestamp and entropy advancement in `runTask` -/

/-- The entropy chain of the `runTask` request loop: the i-th invocation
observes the i-fold hash of the starting entropy. -/
theorem runTaskLoop_entropy (proc : Nat → VState → Int → Nat → Nat)
    (hashE : Nat → Nat) :
    ∀ (reqs : List Nat) (vs : VState) (t : Int) (e0 : Nat),
      (runTaskLoop proc hashE vs t e0 reqs).calls.map VMCall.entropy
        = (List.range reqs.length).map (fun i => Nat.iterate hashE i e0) := by
  intro reqs
  induction reqs with
  | nil => intro vs t e0; rfl
  | cons r rest ih =>
    intro vs t e0
    simp only [runTaskLoop, List.map_cons, List.length_cons,
      List.range_succ_eq_map, List.map_map]
    rw [ih]
    have hfun : ((fun i => Nat.iterate hashE i e0) ∘ Nat.succ)
        = fun i => Nat.iterate hashE i (hashE e0) := by
      funext i
      simp [Function.comp, Function.iterate_succ_apply]
    rw [hfun]
    rfl

/-- The timestamp chain of the `runTask` request loop for a positive start:
the i-th invocation observes t + i. -/
theorem runTaskLoop_timestamps_pos (proc : Nat → VState → Int → Nat → Nat)
    (hashE : Nat → Nat) :
    ∀ (reqs : List Nat) (vs : VState) (t : Int) (e0 : Nat), 0 < t →
      (runTaskLoop proc hashE vs t e0 reqs).calls.map VMCall.timestamp
        = (List.range reqs.length).map (fun i : Nat => t + (i : Int)) := by
  intro reqs
  induction reqs with
  | nil => intro vs t e0 _; rfl
  | cons r rest ih =>
    intro vs t e0 ht
    have hne : t ≠ 0 := ne_of_gt ht
    simp only [runTaskLoop, if_pos hne, List.map_cons, List.length_cons,
      List.range_succ_eq_map, List.map_map]
    rw [ih _ _ _ (by omega)]
    have hfun : ((fun i : Nat => t + (i : Int)) ∘ Nat.succ)
        = fun i : Nat => (t + 1) + (i : Int) := by
      funext i
      simp only [Function.comp]
      push_cast
      ring
    rw [hfun]
    congr 1
    push_cast
    ring

/-- The timestamp chain of the `runTask` request loop for a zero start:
every invocation observes 0. -/
theorem runTaskLoop_timestamps_zero (proc : Nat → VState → Int → Nat → Nat)
    (hashE : Nat → Nat) :
    ∀ (reqs : List Nat) (vs : VState) (e0 : Nat),
      (runTaskLoop proc hashE vs 0 e0 reqs).calls.map VMCall.timestamp
        = List.replicate reqs.length 0 := by
  intro reqs
  induction reqs with
  | nil => intro vs e0; rfl
  | cons r rest ih =>
    intro vs e0
    simp only [runTaskLoop, List.map_cons, List.length_cons, List.replicate_succ]
    norm_num
    exact ih _ _

/-- C4 (amended): in the request loop of `runTask`, the entropy observed by
the i-th `runTheRequest` invocation is the i-fold hash of the starting
entropy; for a *positive* starting timestamp t the i-th invocation observes
timestamp t + i; and a zero starting timestamp stays zero for every
invocation. -/
theorem runTask_timestamps_entropy (proc : Nat → VState → Int → Nat → Nat)
    (hashE : Nat → Nat) (vs : VState) (t : Int) (e0 : Nat) (reqs : List Nat) :
    ((runTaskLoop proc hashE vs t e0 reqs).calls.map VMCall.entropy
        = (List.range reqs.length).map (fun i => Nat.iterate hashE i e0))
    ∧ (0 < t →
        (runTaskLoop proc hashE vs t e0 reqs).calls.map VMCall.timestamp
          = (List.range reqs.length).map (fun i : Nat => t + (i : Int)))
    ∧ (t = 0 →
        (runTaskLoop proc hashE vs t e0 reqs).calls.map VMCall.timestamp
          = List.replicate reqs.length 0) :=
  ⟨runTaskLoop_entropy proc hashE reqs vs t e0,
   fun ht => runTaskLoop_timestamps_pos proc hashE reqs vs t e0 ht,
   fun ht => ht ▸ runTaskLoop_timestamps_zero proc hashE reqs vs e0⟩

/-- C4 counterexample to the claim as stated: for the nonzero starting
timestamp -1 and three requests, the observed timestamps are -1, 0, 0 — not
-1 + 0, -1 + 1, -1 + 2 as the claim predicts for every nonzero start. -/
theorem runTask_timestamps_negative_counterexample :
    (runTaskLoop cproc chash vsInit (-1) 9 [10, 11, 12]).calls.map VMCall.timestamp
        = [-1, 0, 0]
    ∧ ([(-1 : Int), 0, 0] ≠ [-1 + (0 : Int), -1 + 1, -1 + 2]) :=
  ⟨rfl, by decide⟩

/-- Witness for C4 (amended) with positive starting timestamp 5, entropy 9
and two requests. -/
theorem runTask_timestamps_entropy_witness :
    ((runTaskLoop cproc chash vsInit 5 9 [10, 11]).calls.map VMCall.entropy
        = (List.range 2).map (fun i => Nat.iterate chash i 9))
    ∧ ((runTaskLoop cproc chash vsInit 5 9 [10, 11]).calls.map VMCall.timestamp
        = (List.range 2).map (fun i : Nat => (5 : Int) + (i : Int)))
    ∧ ((runTaskLoop cproc chash vsInit 0 9 [10, 11]).calls.map VMCall.timestamp
        = List.replicate 2 0) :=
  ⟨(runTask_timestamps_entropy cproc chash vsInit 5 9 [10, 11]).1,
   (runTask_timestamps_entropy cproc chash vsInit 5 9 [10, 11]).2.1 (by decide),
   (runTask_timestamps_entropy cproc chash vsInit 0 9 [10, 11]).2.2 rfl⟩

/-! ### C5: the state hash is computed on a second clone of the original
snapshot -/

/-- C5: when `runTask` succeeds, the task's own virtual-state snapshot is
left unchanged, and the state hash recorded in the result transaction is the
hash of the batch applied to (a clone of) the task's *original* snapshot —
not of the working snapshot mutated during request processing. -/
theorem runTask_hash_on_second_clone (proc : Nat → VState → Int → Nat → Nat)
    (hashE : Nat → Nat) (ctx ctx2 : VMTask)
    (h : runTask proc hashE ctx = (ctx2, Except.ok ())) :
    ctx2.virtualState = ctx.virtualState
    ∧ ∃ b, ctx2.resultBatch = some b
        ∧ ∃ vs2, applyBatch ctx.virtualState b = Except.ok vs2
            ∧ ∃ tx, ctx2.resultTransaction = some tx ∧ tx.stateHash = vs2.hash := by
  unfold runTask at h
  split at h
  · cases h
  · split at h
    · cases h
    · rename_i b0 hb
      split at h
      · cases h
      · rename_i vs2 happ
        obtain ⟨h1, h2⟩ := Prod.mk.injEq .. ▸ h
        subst h1
        exact ⟨rfl, _, rfl, vs2, happ, _, rfl, rfl⟩

/-- Witness for C5 at a concrete successful run. -/
theorem runTask_hash_on_second_clone_witness :
    (runTask cproc chash ctxOne).1.virtualState = ctxOne.virtualState
    ∧ ∃ b, (runTask cproc chash ctxOne).1.resultBatch = some b
        ∧ ∃ vs2, applyBatch ctxOne.virtualState b = Except.ok vs2
            ∧ ∃ tx, (runTask cproc chash ctxOne).1.resultTransaction = some tx
                ∧ tx.stateHash = vs2.hash :=
  runTask_hash_on_second_clone cproc chash ctxOne (runTask cproc chash ctxOne).1 rfl

/-! ### C6: tasks with zero requests are rejected at submission -/

/-- C6: a task with zero requests is rejected by `RunComputationsAsync` with
an error, before any builder is constructed and before any background worker
is scheduled (so no completion callback can ever run for it). -/
theorem emptyTask_rejected (ctx : VMTask) (h : ctx.requests = []) :
    RunComputationsAsync ctx = ([], Except.error "must be at least 1 request") := by
  unfold RunComputationsAsync
  rw [if_pos h]

/-- Witness for C6 at a concrete empty task. -/
theorem emptyTask_rejected_witness :
    RunComputationsAsync ctxEmpty = ([], Except.error "must be at least 1 request") :=
  emptyTask_rejected ctxEmpty rfl

/-! ### C9: rejection of unrecognized argument types -/

/-- If some block's argument map contains an unrecognized value, the
request-building loop fails (with the argument error, or earlier with an
insufficient-balance error on a preceding block). -/
theorem buildLoop_errors (blocks : List BlockPar) :
    ∀ remaining : Int, (∃ bp ∈ blocks, convertArgs bp.vars = none) →
      ∃ e, buildLoop remaining blocks = Except.error e := by
  induction blocks with
  | nil =>
    intro r h
    simp at h
  | cons bp rest ih =>
    intro r hbad
    cases hc : convertArgs bp.vars with
    | none => exact ⟨"wrong arguments", by simp [buildLoop, hc]⟩
    | some m =>
      obtain ⟨bp2, hmem, hbp2⟩ := hbad
      rcases List.mem_cons.mp hmem with rfl | hmem2
      · rw [hc] at hbp2
        cases hbp2
      · cases ha : addRequestBlockWithTransfer r bp with
        | error e => exact ⟨e, by simp [buildLoop, hc, ha]⟩
        | ok r2 =>
          obtain ⟨e, he⟩ := ih r2 ⟨bp2, hmem2, hbp2⟩
          exact ⟨e, by simp [buildLoop, hc, ha, he]⟩

/-- C9 (amended): if any block's argument map contains an unrecognized
value, `CreateRequestTransaction` returns an error, no transaction is built
and nothing is posted; the event trace at rejection is exactly the initial
node-client fetch of confirmed outputs — a network interaction that has
already taken place. -/
theorem createRequest_badArgs_aborts (fetched : Except String Int)
    (blocks : List BlockPar) (post waitConfirm : Bool)
    (hbad : ∃ bp ∈ blocks, convertArgs bp.vars = none) :
    (CreateRequestTransaction fetched blocks post waitConfirm).1
        = [ApiEvent.getConfirmedOutputs]
    ∧ ∃ e, (CreateRequestTransaction fetched blocks post waitConfirm).2
        = Except.error e := by
  cases fetched with
  | error e =>
    exact ⟨rfl, ⟨"cannot get outputs from the node: " ++ e, rfl⟩⟩
  | ok bal =>
    by_cases hb : bal ≤ 0
    · constructor
      · simp [CreateRequestTransaction, hb]
      · exact ⟨"wrong balances", by simp [CreateRequestTransaction, hb]⟩
    · obtain ⟨e, he⟩ := buildLoop_errors blocks bal hbad
      constructor
      · simp [CreateRequestTransaction, hb, he]
      · exact ⟨e, by simp [CreateRequestTransaction, hb, he]⟩

/-- C9 counterexample to the claim as stated: at the rejection of the
unrecognized argument, the node-client fetch of confirmed outputs — a
network interaction — has already taken place (it is in the event trace),
so the rejection does not happen before any network interaction. -/
theorem createRequest_rejection_not_before_network :
    CreateRequestTransaction (Except.ok 10) [bpBadArg] false false
        = ([ApiEvent.getConfirmedOutputs], Except.error "wrong arguments")
    ∧ ApiEvent.getConfirmedOutputs
        ∈ (CreateRequestTransaction (Except.ok 10) [bpBadArg] false false).1 :=
  ⟨rfl, by decide⟩

/-- Witness for C9 (amended) at a concrete call with posting requested. -/
theorem createRequest_badArgs_aborts_witness :
    (CreateRequestTransaction (Except.ok 10) [bpBadArg] true true).1
        = [ApiEvent.getConfirmedOutputs]
    ∧ ∃ e, (CreateRequestTransaction (Except.ok 10) [bpBadArg] true true).2
        = Except.error e :=
  createRequest_badArgs_aborts (Except.ok 10) [bpBadArg] true true
    ⟨bpBadArg, by decide, rfl⟩

/-! ### C10: unchecked uint64 reinterpretation -/

/-- C10: `convertArgs` accepts a Go `uint64` by reinterpreting it as an
`int64` without a range check: for any value of at least 2^63 the stored
int64 is negative, and no integer-typed value is ever rejected. -/
theorem convertArgs_uint64_wraps (v : Nat) (h1 : v < 2 ^ 64) (h2 : 2 ^ 63 ≤ v) :
    (convertOne (ArgValue.aUint64 v) = some (KVVal.kInt64 (uint64ToInt64 v))
      ∧ uint64ToInt64 v < 0)
    ∧ (∀ args : List (String × ArgValue),
        (∀ p ∈ args, p.2.isIntegerTyped = true) →
        (convertArgs args).isSome = true) := by
  constructor
  · refine ⟨rfl, ?_⟩
    unfold uint64ToInt64
    rw [Nat.mod_eq_of_lt h1, if_neg (by omega)]
    omega
  · intro args
    induction args with
    | nil =>
      intro _
      rfl
    | cons p rest ih =>
      intro hall
      obtain ⟨k, val⟩ := p
      have hint := hall (k, val) (List.mem_cons_self _ _)
      have hsome : ∃ kv, convertOne val = some kv := by
        cases val
        case aOther tag => simp [ArgValue.isIntegerTyped] at hint
        case aString s => simp [ArgValue.isIntegerTyped] at hint
        case aBytes b => simp [ArgValue.isIntegerTyped] at hint
        case aHashValue b => simp [ArgValue.isIntegerTyped] at hint
        case aAddress b => simp [ArgValue.isIntegerTyped] at hint
        case aColor b => simp [ArgValue.isIntegerTyped] at hint
        all_goals exact ⟨_, rfl⟩
      obtain ⟨kv, hkv⟩ := hsome
      have hrest := ih (fun q hq => hall q (List.mem_cons_of_mem _ hq))
      cases hr : convertArgs rest with
      | none =>
        rw [hr] at hrest
        cases hrest
      | some m =>
        simp [convertArgs, hkv, hr]

/-- Witness for C10 at the smallest wrapping value 2^63. -/
theorem convertArgs_uint64_wraps_witness :
    uint64ToInt64 (2 ^ 63) < 0
    ∧ (convertArgs [("k", ArgValue.aUint64 (2 ^ 63))]).isSome = true :=
  ⟨((convertArgs_uint64_wraps (2 ^ 63) (by norm_num) (by norm_num)).1).2,
   (convertArgs_uint64_wraps (2 ^ 63) (by norm_num) (by norm_num)).2
     [("k", ArgValue.aUint64 (2 ^ 63))] (by decide)⟩

end Wasp
